import Mathlib

/-!
Shallow embedding of the robogpt-video streaming server and client
(src/server/stream_manager.py, src/server/app.py, src/server/recording_service.py,
src/server/cleanup_manager.py, src/client/publisher.py), together with proofs
about the embedded operations.

Conventions:
  * JPEG payloads are byte lists (List Nat).
  * The Python dict of streams is an association list with unique keys;
    insertion appends at the end (Python dicts preserve insertion order).
  * Wall-clock instants are naturals (StreamManager) or rationals (recording).
  * Thread interleavings are modelled as sequences of atomic operations,
    each operation being one lock-protected critical section of the source.
-/

namespace RobogptVideo

/-- JPEG payload: a list of bytes. -/
abbrev Frame := List Nat

/-! ## Stream name validation (stream_manager.py, _validate_stream_name) -/

/-- Membership in the character class [a-zA-Z0-9_-]. -/
def isNameChar (c : Char) : Bool :=
  (('a' ≤ c && c ≤ 'z') || ('A' ≤ c && c ≤ 'Z') || ('0' ≤ c && c ≤ '9')
    || (c = '_' : Bool) || (c = '-' : Bool))

/-- Embedding of bool(re.match(r'^[a-zA-Z0-9_-]{1,64}$', name)).
In Python, the dollar anchor matches at the end of the string OR just before
a single newline that ends the string, so a name consisting of 1..64 class
characters followed by one trailing newline is also accepted. -/
def validate_stream_name (name : String) : Bool :=
  let chars := name.toList
  let core := if chars.getLast? = some '\n' then chars.dropLast else chars
  1 ≤ core.length && core.length ≤ 64 && core.all isNameChar

/-- Modelled from the spec: the stream-name grammar written in the spec,
matched mathematically (the whole string consists of 1..64 characters of
the class, with no newline allowance). Used to compare the spec grammar
with the behaviour of validate_stream_name. -/
def grammar_match (name : String) : Bool :=
  1 ≤ name.toList.length && name.toList.length ≤ 64 && name.toList.all isNameChar

/-! ## StreamInfo and StreamManager state (stream_manager.py) -/

/-- Per-stream record (dataclass StreamInfo). The deque's maxlen is stored
as buffer_maxlen, set from the manager's max_buffer_frames at creation. -/
structure StreamInfo where
  name : String
  created_at : Nat
  last_frame_time : Nat
  current_frame : Option Frame
  frame_buffer : List Frame
  buffer_maxlen : Nat
  viewer_count : Int
  total_frames : Nat
deriving Repr, DecidableEq

/-- StreamManager state: the _streams dict plus the two configuration knobs. -/
structure StreamManager where
  streams : List (String × StreamInfo)
  max_concurrent : Nat
  max_buffer_frames : Nat
deriving Repr, DecidableEq

/-- A fresh manager (StreamManager.__init__). -/
def mkStreamManager (max_concurrent max_buffer_frames : Nat) : StreamManager :=
  ⟨[], max_concurrent, max_buffer_frames⟩

/-- Dict lookup: self._streams.get(name) on the association list. -/
def lookupStream : List (String × StreamInfo) → String → Option StreamInfo
  | [], _ => none
  | p :: rest, k => if p.1 = k then some p.2 else lookupStream rest k

/-- In-place mutation of the StreamInfo stored under a key. -/
def updateStream : List (String × StreamInfo) → String → (StreamInfo → StreamInfo) →
    List (String × StreamInfo)
  | [], _, _ => []
  | p :: rest, k, f =>
    if p.1 = k then (p.1, f p.2) :: updateStream rest k f
    else p :: updateStream rest k f

/-- Dict deletion: del self._streams[name]. -/
def eraseStream : List (String × StreamInfo) → String → List (String × StreamInfo)
  | [], _ => []
  | p :: rest, k => if p.1 = k then eraseStream rest k else p :: eraseStream rest k

/-- collections.deque append with a maxlen: the oldest elements are evicted
so that at most maxlen elements remain (for maxlen = 0 the deque stays empty). -/
def dequeAppend (maxlen : Nat) (buf : List Frame) (x : Frame) : List Frame :=
  (buf ++ [x]).drop (buf.length + 1 - maxlen)

/-! ## StreamManager operations -/

/-- Outcome of create_stream: True, False, ValueError, RuntimeError. -/
inductive CreateResult
  | created
  | alreadyExists
  | errInvalidName
  | errCapacity
deriving Repr, DecidableEq

/-- HTTP status that app.py's publish handler produces for each create_stream
outcome: ValueError becomes BadRequest 400, RuntimeError becomes 503,
the two non-error outcomes let the publish continue (200). -/
def createHttpStatus : CreateResult → Nat
  | .created => 200
  | .alreadyExists => 200
  | .errInvalidName => 400
  | .errCapacity => 503

/-- StreamManager.create_stream. Validation runs first; an existing name
returns False before the capacity check; capacity is checked against the
current dict size; otherwise a fresh StreamInfo is inserted. -/
def StreamManager.create_stream (m : StreamManager) (name : String) (now : Nat) :
    StreamManager × CreateResult :=
  if validate_stream_name name = false then (m, .errInvalidName)
  else
    match lookupStream m.streams name with
    | some _ => (m, .alreadyExists)
    | none =>
      if m.max_concurrent ≤ m.streams.length then (m, .errCapacity)
      else
        let s : StreamInfo :=
          { name := name, created_at := now, last_frame_time := now,
            current_frame := none, frame_buffer := [],
            buffer_maxlen := m.max_buffer_frames, viewer_count := 0,
            total_frames := 0 }
        ({ m with streams := m.streams ++ [(name, s)] }, .created)

/-- StreamManager.publish_frame. -/
def StreamManager.publish_frame (m : StreamManager) (name : String) (frame_data : Frame)
    (now : Nat) : StreamManager × Bool :=
  match lookupStream m.streams name with
  | none => (m, false)
  | some _ =>
    ({ m with streams := updateStream m.streams name (fun s =>
        { s with current_frame := some frame_data,
                 frame_buffer := dequeAppend s.buffer_maxlen s.frame_buffer frame_data,
                 last_frame_time := now,
                 total_frames := s.total_frames + 1 }) }, true)

/-- StreamManager.get_current_frame. -/
def StreamManager.get_current_frame (m : StreamManager) (name : String) : Option Frame :=
  (lookupStream m.streams name).bind (fun s => s.current_frame)

/-- StreamManager.delete_stream. -/
def StreamManager.delete_stream (m : StreamManager) (name : String) : StreamManager × Bool :=
  match lookupStream m.streams name with
  | none => (m, false)
  | some _ => ({ m with streams := eraseStream m.streams name }, true)

/-- The critical section at the top of get_stream_generator: increment
viewer_count if the stream exists. -/
def StreamManager.generator_enter (m : StreamManager) (name : String) : StreamManager :=
  match lookupStream m.streams name with
  | none => m
  | some _ =>
    { m with streams := updateStream m.streams name (fun s =>
        { s with viewer_count := s.viewer_count + 1 }) }

/-- The finally block of get_stream_generator: decrement viewer_count if the
stream (still) exists; when the stream is gone the decrement is skipped. -/
def StreamManager.generator_exit (m : StreamManager) (name : String) : StreamManager :=
  match lookupStream m.streams name with
  | none => m
  | some _ =>
    { m with streams := updateStream m.streams name (fun s =>
        { s with viewer_count := s.viewer_count - 1 }) }

/-- Bytes of the multipart header written before each JPEG payload. -/
def mjpegHeader : List Nat :=
  "--frame\r\nContent-Type: image/jpeg\r\n\r\n".toList.map Char.toNat

/-- Bytes of the CRLF that ends each multipart chunk. -/
def mjpegCrlf : List Nat := "\r\n".toList.map Char.toNat

/-- One multipart chunk as yielded by the generator. -/
def mjpegChunk (frame : Frame) : List Nat := mjpegHeader ++ frame ++ mjpegCrlf

/-- What one iteration of the while-True loop in get_stream_generator does.
The loop body reads get_current_frame; a truthy (non-empty) frame is yielded
as a chunk, anything else (no stream, no frame yet, or an empty payload)
leads to a 100 ms sleep. The loop body contains no break or return, so no
iteration can exit the loop; GenStep.exit is the outcome a break or return
would produce and is never the value of generatorStep. -/
inductive GenStep
  | yieldChunk (chunk : List Nat)
  | sleep
  | exit
deriving Repr, DecidableEq

/-- One iteration of the fan-out loop body (stream_manager.py lines 157-166). -/
def generatorStep (m : StreamManager) (name : String) : GenStep :=
  match m.get_current_frame name with
  | some f => if f.isEmpty then .sleep else .yieldChunk (mjpegChunk f)
  | none => .sleep

/-- Observation of the fan-out loop along a schedule of manager states:
at tick i the loop body runs against the manager state ms i. -/
def genTrace (ms : Nat → StreamManager) (name : String) (i : Nat) : GenStep :=
  generatorStep (ms i) name

/-- The generator terminates along a schedule iff some iteration exits. -/
def genTraceTerminates (ms : Nat → StreamManager) (name : String) : Prop :=
  ∃ i, genTrace ms name i = GenStep.exit

/-! ## Interleavings of StreamManager operations -/

/-- Atomic lock-protected operations on the manager: creation (as done by the
publish handler), publish, deletion, and the two viewer-count brackets of the
fan-out generator. -/
inductive MOp
  | create (name : String) (now : Nat)
  | publish (name : String) (frame : Frame) (now : Nat)
  | delete (name : String)
  | genEnter (name : String)
  | genExit (name : String)
deriving Repr, DecidableEq

/-- State transition of one operation. -/
def applyOp (m : StreamManager) : MOp → StreamManager
  | .create n now => (m.create_stream n now).1
  | .publish n f now => (m.publish_frame n f now).1
  | .delete n => (m.delete_stream n).1
  | .genEnter n => m.generator_enter n
  | .genExit n => m.generator_exit n

/-- Run a sequence of operations. -/
def runOps (m : StreamManager) (ops : List MOp) : StreamManager :=
  ops.foldl applyOp m

/-! ## Dictionary lemmas -/

theorem lookupStream_append_of_none {l1 : List (String × StreamInfo)}
    (l2 : List (String × StreamInfo)) {k : String} (h : lookupStream l1 k = none) :
    lookupStream (l1 ++ l2) k = lookupStream l2 k := by
  induction l1 with
  | nil => rfl
  | cons p rest ih =>
    by_cases hp : p.1 = k
    · simp [lookupStream, hp] at h
    · simp only [lookupStream, hp, if_neg, List.cons_append] at h ⊢
      exact ih h

theorem lookupStream_append_of_some {l1 : List (String × StreamInfo)}
    (l2 : List (String × StreamInfo)) {k : String} {s : StreamInfo}
    (h : lookupStream l1 k = some s) : lookupStream (l1 ++ l2) k = some s := by
  induction l1 with
  | nil => simp [lookupStream] at h
  | cons p rest ih =>
    by_cases hp : p.1 = k
    · simp only [lookupStream, hp, if_pos, List.cons_append] at h ⊢
      exact h
    · simp only [lookupStream, hp, if_neg, List.cons_append] at h ⊢
      exact ih h

theorem lookupStream_update_self (l : List (String × StreamInfo)) (k : String)
    (f : StreamInfo → StreamInfo) :
    lookupStream (updateStream l k f) k = (lookupStream l k).map f := by
  induction l with
  | nil => rfl
  | cons p rest ih =>
    by_cases hp : p.1 = k
    · simp [updateStream, lookupStream, hp]
    · simp [updateStream, lookupStream, hp, ih]

theorem lookupStream_update_ne {l : List (String × StreamInfo)} {k k' : String}
    {f : StreamInfo → StreamInfo} (h : k' ≠ k) :
    lookupStream (updateStream l k f) k' = lookupStream l k' := by
  have hkk : ¬ k = k' := fun hh => h hh.symm
  induction l with
  | nil => rfl
  | cons p rest ih =>
    by_cases hp : p.1 = k
    · simp [updateStream, lookupStream, hp, hkk, ih]
    · by_cases hp' : p.1 = k'
      · simp [updateStream, lookupStream, hp, hp', h]
      · simp [updateStream, lookupStream, hp, hp', ih]

theorem lookupStream_erase_self (l : List (String × StreamInfo)) (k : String) :
    lookupStream (eraseStream l k) k = none := by
  induction l with
  | nil => rfl
  | cons p rest ih =>
    by_cases hp : p.1 = k
    · simp [eraseStream, hp, ih]
    · simp [eraseStream, lookupStream, hp, ih]

theorem lookupStream_erase_ne {l : List (String × StreamInfo)} {k k' : String}
    (h : k' ≠ k) : lookupStream (eraseStream l k) k' = lookupStream l k' := by
  have hkk : ¬ k = k' := fun hh => h hh.symm
  induction l with
  | nil => rfl
  | cons p rest ih =>
    by_cases hp : p.1 = k
    · simp [eraseStream, lookupStream, hp, hkk, ih]
    · by_cases hp' : p.1 = k'
      · simp [eraseStream, lookupStream, hp, hp', h]
      · simp [eraseStream, lookupStream, hp, hp', ih]

/-- No operation changes the configured buffer bound. -/
theorem applyOp_max_buffer_frames (m : StreamManager) (op : MOp) :
    (applyOp m op).max_buffer_frames = m.max_buffer_frames := by
  cases op with
  | create n now =>
    simp only [applyOp, StreamManager.create_stream]
    by_cases hv : validate_stream_name n = false
    · simp [hv]
    · cases hl : lookupStream m.streams n with
      | some s => simp [hv, hl]
      | none =>
        by_cases hc : m.max_concurrent ≤ m.streams.length
        · simp [hv, hl, hc]
        · simp [hv, hl, hc]
  | publish n f now =>
    simp only [applyOp, StreamManager.publish_frame]
    cases hl : lookupStream m.streams n <;> simp
  | delete n =>
    simp only [applyOp, StreamManager.delete_stream]
    cases hl : lookupStream m.streams n <;> simp
  | genEnter n =>
    simp only [applyOp, StreamManager.generator_enter]
    cases hl : lookupStream m.streams n <;> simp
  | genExit n =>
    simp only [applyOp, StreamManager.generator_exit]
    cases hl : lookupStream m.streams n <;> simp

/-! ## Live-generator accounting for viewer_count -/

/-- Number of live fan-out generators per stream, updated at the increment
and decrement brackets. -/
def updateLive (live : String → Nat) : MOp → (String → Nat)
  | .genEnter n => Function.update live n (live n + 1)
  | .genExit n => Function.update live n (live n - 1)
  | _ => live

/-- Live-generator counts after a sequence of operations. -/
def liveAfter (live : String → Nat) (ops : List MOp) : String → Nat :=
  ops.foldl updateLive live

/-- Well-bracketing side-condition for one operation: a generator exit
matches a live generator, a generator only starts on an existing stream
(the /stream route 404s otherwise), and a stream is only deleted when it
has no live generators. -/
def wfHead (m : StreamManager) (live : String → Nat) : MOp → Bool
  | .delete n => live n == 0
  | .genEnter n => (lookupStream m.streams n).isSome
  | .genExit n => decide (0 < live n)
  | _ => true

/-- Well-bracketed sequence of operations. -/
def wfOps : StreamManager → (String → Nat) → List MOp → Bool
  | _, _, [] => true
  | m, live, op :: rest => wfHead m live op && wfOps (applyOp m op) (updateLive live op) rest

/-- The viewer-count invariant: every live stream's viewer_count equals the
number of live generators subscribed to it, and absent streams have none. -/
def ViewersInv (m : StreamManager) (live : String → Nat) : Prop :=
  (∀ n si, lookupStream m.streams n = some si → si.viewer_count = (live n : Int)) ∧
  (∀ n, lookupStream m.streams n = none → live n = 0)

/-- The fresh StreamInfo inserted by a successful create_stream. -/
def freshStreamInfo (m : StreamManager) (name : String) (now : Nat) : StreamInfo :=
  { name := name, created_at := now, last_frame_time := now, current_frame := none,
    frame_buffer := [], buffer_maxlen := m.max_buffer_frames, viewer_count := 0,
    total_frames := 0 }

theorem create_stream_invalid {m : StreamManager} {name : String} (now : Nat)
    (hv : validate_stream_name name = false) :
    m.create_stream name now = (m, .errInvalidName) := by
  simp [StreamManager.create_stream, hv]

theorem create_stream_exists {m : StreamManager} {name : String} (now : Nat)
    {s : StreamInfo} (hv : validate_stream_name name = true)
    (hl : lookupStream m.streams name = some s) :
    m.create_stream name now = (m, .alreadyExists) := by
  simp [StreamManager.create_stream, hv, hl]

theorem create_stream_capacity {m : StreamManager} {name : String} (now : Nat)
    (hv : validate_stream_name name = true) (hl : lookupStream m.streams name = none)
    (hc : m.max_concurrent ≤ m.streams.length) :
    m.create_stream name now = (m, .errCapacity) := by
  simp [StreamManager.create_stream, hv, hl, hc]

theorem create_stream_created {m : StreamManager} {name : String} (now : Nat)
    (hv : validate_stream_name name = true) (hl : lookupStream m.streams name = none)
    (hc : m.streams.length < m.max_concurrent) :
    m.create_stream name now =
      ({ m with streams := m.streams ++ [(name, freshStreamInfo m name now)] }, .created) := by
  simp [StreamManager.create_stream, hv, hl, Nat.not_le.mpr hc, freshStreamInfo]

theorem viewersInv_step (m : StreamManager) (live : String → Nat) (op : MOp)
    (hok : wfHead m live op = true) (hinv : ViewersInv m live) :
    ViewersInv (applyOp m op) (updateLive live op) := by
  obtain ⟨h1, h2⟩ := hinv
  cases op with
  | create n now =>
    show ViewersInv (m.create_stream n now).1 live
    cases hv : validate_stream_name n with
    | false => rw [create_stream_invalid now hv]; exact ⟨h1, h2⟩
    | true =>
      cases hl : lookupStream m.streams n with
      | some s => rw [create_stream_exists now hv hl]; exact ⟨h1, h2⟩
      | none =>
        by_cases hc : m.streams.length < m.max_concurrent
        · rw [create_stream_created now hv hl hc]
          constructor
          · intro n' si' hl'
            by_cases hn : n' = n
            · subst hn
              rw [lookupStream_append_of_none _ hl] at hl'
              simp [lookupStream] at hl'
              rw [← hl']
              have hz := h2 n' hl
              simp [freshStreamInfo, hz]
            · cases hcase : lookupStream m.streams n' with
              | some s' =>
                rw [lookupStream_append_of_some _ hcase] at hl'
                injection hl' with he
                rw [← he]
                exact h1 n' s' hcase
              | none =>
                rw [lookupStream_append_of_none _ hcase] at hl'
                simp [lookupStream, Ne.symm hn] at hl'
          · intro n' hl'
            by_cases hn : n' = n
            · subst hn
              rw [lookupStream_append_of_none _ hl] at hl'
              simp [lookupStream] at hl'
            · cases hcase : lookupStream m.streams n' with
              | some s' => rw [lookupStream_append_of_some _ hcase] at hl'; cases hl'
              | none => exact h2 n' hcase
        · rw [create_stream_capacity now hv hl (Nat.not_lt.mp hc)]
          exact ⟨h1, h2⟩
  | publish n f now =>
    simp only [applyOp, updateLive, StreamManager.publish_frame]
    cases hl : lookupStream m.streams n with
    | none => exact ⟨h1, h2⟩
    | some s =>
      constructor
      · intro n' si' hl'
        by_cases hn : n' = n
        · subst hn
          rw [lookupStream_update_self, hl, Option.map_some'] at hl'
          injection hl' with he
          rw [← he]
          exact h1 n' s hl
        · rw [lookupStream_update_ne hn] at hl'
          exact h1 n' si' hl'
      · intro n' hl'
        by_cases hn : n' = n
        · subst hn
          rw [lookupStream_update_self, hl, Option.map_some'] at hl'
          cases hl'
        · rw [lookupStream_update_ne hn] at hl'
          exact h2 n' hl'
  | delete n =>
    simp only [wfHead, beq_iff_eq] at hok
    simp only [applyOp, updateLive, StreamManager.delete_stream]
    cases hl : lookupStream m.streams n with
    | none => exact ⟨h1, h2⟩
    | some s =>
      constructor
      · intro n' si' hl'
        by_cases hn : n' = n
        · subst hn; rw [lookupStream_erase_self] at hl'; cases hl'
        · rw [lookupStream_erase_ne hn] at hl'
          exact h1 n' si' hl'
      · intro n' hl'
        by_cases hn : n' = n
        · subst hn; exact hok
        · rw [lookupStream_erase_ne hn] at hl'
          exact h2 n' hl'
  | genEnter n =>
    simp only [wfHead, Option.isSome_iff_exists] at hok
    obtain ⟨s, hs⟩ := hok
    simp only [applyOp, updateLive, StreamManager.generator_enter, hs]
    constructor
    · intro n' si' hl'
      by_cases hn : n' = n
      · subst hn
        rw [lookupStream_update_self, hs, Option.map_some'] at hl'
        injection hl' with he
        rw [← he, Function.update_same]
        have hvc := h1 n' s hs
        simp only [hvc]
        push_cast
        ring
      · rw [lookupStream_update_ne hn] at hl'
        rw [Function.update_noteq hn]
        exact h1 n' si' hl'
    · intro n' hl'
      by_cases hn : n' = n
      · subst hn
        rw [lookupStream_update_self, hs, Option.map_some'] at hl'
        cases hl'
      · rw [lookupStream_update_ne hn] at hl'
        rw [Function.update_noteq hn]
        exact h2 n' hl'
  | genExit n =>
    simp only [wfHead, decide_eq_true_eq] at hok
    have hs : ∃ s, lookupStream m.streams n = some s := by
      cases hcase : lookupStream m.streams n with
      | none => exact absurd (h2 n hcase) (by omega)
      | some s => exact ⟨s, rfl⟩
    obtain ⟨s, hs⟩ := hs
    simp only [applyOp, updateLive, StreamManager.generator_exit, hs]
    constructor
    · intro n' si' hl'
      by_cases hn : n' = n
      · subst hn
        rw [lookupStream_update_self, hs, Option.map_some'] at hl'
        injection hl' with he
        rw [← he, Function.update_same]
        have hvc := h1 n' s hs
        simp only [hvc]
        omega
      · rw [lookupStream_update_ne hn] at hl'
        rw [Function.update_noteq hn]
        exact h1 n' si' hl'
    · intro n' hl'
      by_cases hn : n' = n
      · subst hn
        rw [lookupStream_update_self, hs, Option.map_some'] at hl'
        cases hl'
      · rw [lookupStream_update_ne hn] at hl'
        rw [Function.update_noteq hn]
        exact h2 n' hl'

theorem viewersInv_runOps (ops : List MOp) : ∀ (m : StreamManager) (live : String → Nat),
    wfOps m live ops = true → ViewersInv m live →
    ViewersInv (runOps m ops) (liveAfter live ops) := by
  induction ops with
  | nil => intro m live _ h; exact h
  | cons op rest ih =>
    intro m live hwf hinv
    simp only [wfOps, Bool.and_eq_true] at hwf
    exact ih _ _ hwf.2 (viewersInv_step m live op hwf.1 hinv)

/-! ## Frame-buffer invariant -/

theorem dequeAppend_length_le (maxlen : Nat) (buf : List Frame) (x : Frame) :
    (dequeAppend maxlen buf x).length ≤ maxlen := by
  simp only [dequeAppend, List.length_drop, List.length_append, List.length_singleton]
  omega

theorem dequeAppend_length_le_succ (maxlen : Nat) (buf : List Frame) (x : Frame) :
    (dequeAppend maxlen buf x).length ≤ buf.length + 1 := by
  simp only [dequeAppend, List.length_drop, List.length_append, List.length_singleton]
  omega

theorem dequeAppend_getLast? (maxlen : Nat) (buf : List Frame) (x : Frame)
    (h : 1 ≤ maxlen) : (dequeAppend maxlen buf x).getLast? = some x := by
  unfold dequeAppend
  rw [List.drop_append_of_le_length (by omega)]
  exact List.getLast?_concat _

/-- Per-stream buffer bookkeeping relative to the configured bound B. -/
def BuffersInvB (B : Nat) (streams : List (String × StreamInfo)) : Prop :=
  ∀ n si, lookupStream streams n = some si →
    si.buffer_maxlen = B ∧
    si.frame_buffer.length ≤ B ∧
    si.frame_buffer.length ≤ si.total_frames ∧
    (1 ≤ B → ∀ f, si.current_frame = some f → si.frame_buffer.getLast? = some f)

theorem buffersInvB_step (B : Nat) (m : StreamManager) (op : MOp)
    (hB : m.max_buffer_frames = B) (hinv : BuffersInvB B m.streams) :
    BuffersInvB B (applyOp m op).streams := by
  cases op with
  | create n now =>
    show BuffersInvB B (m.create_stream n now).1.streams
    cases hv : validate_stream_name n with
    | false => rw [create_stream_invalid now hv]; exact hinv
    | true =>
      cases hl : lookupStream m.streams n with
      | some s => rw [create_stream_exists now hv hl]; exact hinv
      | none =>
        by_cases hc : m.streams.length < m.max_concurrent
        · rw [create_stream_created now hv hl hc]
          intro n' si' hl'
          by_cases hn : n' = n
          · subst hn
            rw [lookupStream_append_of_none _ hl] at hl'
            simp [lookupStream] at hl'
            rw [← hl']
            simp [freshStreamInfo, hB]
          · cases hcase : lookupStream m.streams n' with
            | some s' =>
              rw [lookupStream_append_of_some _ hcase] at hl'
              injection hl' with he
              rw [← he]
              exact hinv n' s' hcase
            | none =>
              rw [lookupStream_append_of_none _ hcase] at hl'
              simp [lookupStream, Ne.symm hn] at hl'
        · rw [create_stream_capacity now hv hl (Nat.not_lt.mp hc)]
          exact hinv
  | publish n f now =>
    show BuffersInvB B (m.publish_frame n f now).1.streams
    cases hl : lookupStream m.streams n with
    | none => simp only [StreamManager.publish_frame, hl]; exact hinv
    | some s =>
      simp only [StreamManager.publish_frame, hl]
      intro n' si' hl'
      by_cases hn : n' = n
      · subst hn
        rw [lookupStream_update_self, hl, Option.map_some'] at hl'
        injection hl' with he
        rw [← he]
        obtain ⟨hb1, hb2, hb3, _⟩ := hinv n' s hl
        refine ⟨hb1, ?_, ?_, ?_⟩
        · simpa [hb1] using dequeAppend_length_le B s.frame_buffer f
        · have := dequeAppend_length_le_succ s.buffer_maxlen s.frame_buffer f
          simp only
          omega
        · intro h1 f' hf'
          simp only at hf'
          injection hf' with he'
          rw [← he']
          exact dequeAppend_getLast? _ _ _ (by omega)
      · rw [lookupStream_update_ne hn] at hl'
        exact hinv n' si' hl'
  | delete n =>
    show BuffersInvB B (m.delete_stream n).1.streams
    cases hl : lookupStream m.streams n with
    | none => simp only [StreamManager.delete_stream, hl]; exact hinv
    | some s =>
      simp only [StreamManager.delete_stream, hl]
      intro n' si' hl'
      by_cases hn : n' = n
      · subst hn; rw [lookupStream_erase_self] at hl'; cases hl'
      · rw [lookupStream_erase_ne hn] at hl'
        exact hinv n' si' hl'
  | genEnter n =>
    show BuffersInvB B (m.generator_enter n).streams
    cases hl : lookupStream m.streams n with
    | none => simp only [StreamManager.generator_enter, hl]; exact hinv
    | some s =>
      simp only [StreamManager.generator_enter, hl]
      intro n' si' hl'
      by_cases hn : n' = n
      · subst hn
        rw [lookupStream_update_self, hl, Option.map_some'] at hl'
        injection hl' with he
        rw [← he]
        exact hinv n' s hl
      · rw [lookupStream_update_ne hn] at hl'
        exact hinv n' si' hl'
  | genExit n =>
    show BuffersInvB B (m.generator_exit n).streams
    cases hl : lookupStream m.streams n with
    | none => simp only [StreamManager.generator_exit, hl]; exact hinv
    | some s =>
      simp only [StreamManager.generator_exit, hl]
      intro n' si' hl'
      by_cases hn : n' = n
      · subst hn
        rw [lookupStream_update_self, hl, Option.map_some'] at hl'
        injection hl' with he
        rw [← he]
        exact hinv n' s hl
      · rw [lookupStream_update_ne hn] at hl'
        exact hinv n' si' hl'

theorem buffersInvB_runOps (B : Nat) (ops : List MOp) :
    ∀ m : StreamManager, m.max_buffer_frames = B → BuffersInvB B m.streams →
      (runOps m ops).max_buffer_frames = B ∧ BuffersInvB B (runOps m ops).streams := by
  induction ops with
  | nil => intro m hB hinv; exact ⟨hB, hinv⟩
  | cons op rest ih =>
    intro m hB hinv
    have hstep := buffersInvB_step B m op hB hinv
    have hB' : (applyOp m op).max_buffer_frames = B := by
      rw [applyOp_max_buffer_frames]; exact hB
    exact ih (applyOp m op) hB' hstep

/-! ## Claim theorems: stream manager -/

/-- Manager state from the counterexample schedule for C1: a stream is
created, receives a frame, gains a viewer, and is then deleted. -/
def c1mgr : StreamManager :=
  runOps (mkStreamManager 50 30)
    [MOp.create "s" 0, MOp.publish "s" [1] 1, MOp.genEnter "s", MOp.delete "s"]

/-- Claim C1, counterexample: with the stream deleted (and staying deleted),
the fan-out loop never exits: every iteration is a sleep, and no manager
state at all can make an iteration exit, because the loop body of
get_stream_generator contains no break or return. The claimed termination
after deletion is therefore false. -/
theorem claim_C1_counterexample :
    lookupStream c1mgr.streams "s" = none ∧
      ¬ genTraceTerminates (fun _ => c1mgr) "s" := by
  constructor
  · decide
  · rintro ⟨i, hi⟩
    simp only [genTrace] at hi
    have hstep : generatorStep c1mgr "s" = GenStep.sleep := by decide
    rw [hstep] at hi
    cases hi

/-- Claim C1 (amended): once the stream is deleted the fan-out generator
stops yielding chunks — every iteration of its loop is a sleep — but it does
not exit on its own: no iteration of the loop body can produce an exit, so
the generator ends only when the consumer closes it (running the finally
block). -/
theorem claim_C1_amended (m : StreamManager) (name : String)
    (h : lookupStream m.streams name = none) :
    generatorStep m name = GenStep.sleep ∧
      ∀ (m2 : StreamManager) (n2 : String), generatorStep m2 n2 ≠ GenStep.exit := by
  constructor
  · simp [generatorStep, StreamManager.get_current_frame, h]
  · intro m2 n2
    unfold generatorStep
    cases m2.get_current_frame n2 with
    | none => simp
    | some f => by_cases hf : f.isEmpty <;> simp [hf]

/-- Witness for claim C1's amended theorem at the concrete deleted-stream
state. -/
theorem claim_C1_witness :
    lookupStream c1mgr.streams "s" = none ∧
      (generatorStep c1mgr "s" = GenStep.sleep ∧
        ∀ (m2 : StreamManager) (n2 : String), generatorStep m2 n2 ≠ GenStep.exit) :=
  ⟨by decide, claim_C1_amended c1mgr "s" (by decide)⟩

/-- Operation schedule for the C2 counterexample: subscribe a viewer, delete
the stream under it, re-create the stream, then let the viewer disconnect. -/
def c2ops : List MOp :=
  [MOp.create "s" 0, MOp.genEnter "s", MOp.delete "s", MOp.create "s" 1, MOp.genExit "s"]

/-- Claim C2, counterexample: after subscribe, delete, re-create, disconnect,
the re-created stream's viewer_count is -1: the finally block of the
generator decrements the freshly created StreamInfo whose count the earlier
increment never touched. viewer_count is negative, refuting the claim for
interleavings that include deletions and re-creations. -/
theorem claim_C2_counterexample :
    (lookupStream (runOps (mkStreamManager 50 30) c2ops).streams "s").map
      StreamInfo.viewer_count = some (-1) := by
  decide

/-- Claim C2 (amended): for well-bracketed interleavings — every generator
exit matches a live generator, generators start only on existing streams,
and no stream is deleted while it has live generators — every live stream's
viewer_count equals its number of live generators, hence is never negative
and returns to 0 once all its viewers have disconnected. Without the
no-delete-under-viewers proviso the count can reach -1, and a generator
whose stream is gone at exit decrements nothing rather than exactly once. -/
theorem claim_C2_amended (K B : Nat) (ops : List MOp)
    (h : wfOps (mkStreamManager K B) (fun _ => 0) ops = true) :
    ∀ n si, lookupStream (runOps (mkStreamManager K B) ops).streams n = some si →
      si.viewer_count = (liveAfter (fun _ => 0) ops n : Int) ∧ 0 ≤ si.viewer_count := by
  have hinit : ViewersInv (mkStreamManager K B) (fun _ => 0) := by
    constructor
    · intro n si hl
      simp [lookupStream, mkStreamManager] at hl
    · intro n _
      rfl
  have hfin := viewersInv_runOps ops _ _ h hinit
  intro n si hl
  have hvc := hfin.1 n si hl
  refine ⟨hvc, ?_⟩
  rw [hvc]
  exact Int.natCast_nonneg _

/-- Witness for claim C2's amended theorem on a concrete well-bracketed
schedule. -/
theorem claim_C2_witness :
    wfOps (mkStreamManager 50 30) (fun _ => 0)
        [MOp.create "s" 0, MOp.genEnter "s", MOp.genExit "s"] = true ∧
      (∀ n si,
        lookupStream (runOps (mkStreamManager 50 30)
            [MOp.create "s" 0, MOp.genEnter "s", MOp.genExit "s"]).streams n = some si →
          si.viewer_count =
            (liveAfter (fun _ => 0) [MOp.create "s" 0, MOp.genEnter "s", MOp.genExit "s"] n : Int) ∧
          0 ≤ si.viewer_count) :=
  ⟨by decide, claim_C2_amended 50 30 _ (by decide)⟩

/-- A manager at capacity 1 holding the single stream named a. -/
def c3base : StreamManager := ((mkStreamManager 1 30).create_stream "a" 0).1

/-- Claim C3 evaluated on the code. The capacity and already-exists parts
behave as claimed: at capacity, a fresh valid name is refused with the
RuntimeError that the publish handler maps to 503 and the manager is
unchanged, while an already-present name returns the non-error
already-exists result even at capacity; a name rejected by the validator is
refused with the ValueError mapped to 400 and nothing is inserted. But the
invalid-name part is broken by the code's use of re.match with a dollar
anchor: the name consisting of abc plus a trailing newline does not match
the spec grammar, yet validate_stream_name accepts it and create_stream
inserts a stream under it, contradicting the function's own docstring. -/
theorem claim_C3_bug :
    grammar_match "abc\n" = false ∧
    validate_stream_name "abc\n" = true ∧
    ((mkStreamManager 50 30).create_stream "abc\n" 0).2 = CreateResult.created ∧
    (lookupStream ((mkStreamManager 50 30).create_stream "abc\n" 0).1.streams
      "abc\n").isSome = true ∧
    c3base.streams.length = 1 ∧
    c3base.create_stream "b" 1 = (c3base, CreateResult.errCapacity) ∧
    createHttpStatus CreateResult.errCapacity = 503 ∧
    c3base.create_stream "a" 1 = (c3base, CreateResult.alreadyExists) ∧
    (mkStreamManager 50 30).create_stream "bad name" 0 =
      (mkStreamManager 50 30, CreateResult.errInvalidName) ∧
    createHttpStatus CreateResult.errInvalidName = 400 := by
  decide

/-- Manager state for the C4 counterexample: max_buffer_frames = 0, one
stream, one published frame. -/
def c4mgr : StreamManager :=
  runOps (mkStreamManager 50 0) [MOp.create "s" 0, MOp.publish "s" [7] 1]

/-- Claim C4, counterexample: with max_buffer_frames = 0 the deque
(maxlen 0) stays empty on append while current_frame is still set, so
current_frame is present but is not the last element of frame_buffer
(which has no last element). -/
theorem claim_C4_counterexample :
    (lookupStream c4mgr.streams "s").map StreamInfo.current_frame =
        some (some ([7] : Frame)) ∧
      (lookupStream c4mgr.streams "s").map (fun si => si.frame_buffer.getLast?) =
        some none := by
  decide

/-- Claim C4 (amended): provided max_buffer_frames ≥ 1, after any sequence
of StreamManager operations every live stream satisfies: the frame buffer
holds at most max_buffer_frames frames, at most total_frames frames, and
whenever current_frame is present it is the last element of frame_buffer.
For max_buffer_frames = 0 the last part fails (deque with maxlen 0 stays
empty while current_frame is set). -/
theorem claim_C4_amended (K B : Nat) (hB : 1 ≤ B) :
    ∀ (ops : List MOp) (n : String) (si : StreamInfo),
      lookupStream (runOps (mkStreamManager K B) ops).streams n = some si →
        si.frame_buffer.length ≤ B ∧ si.frame_buffer.length ≤ si.total_frames ∧
        ∀ f, si.current_frame = some f → si.frame_buffer.getLast? = some f := by
  intro ops n si hl
  have hinit : BuffersInvB B (mkStreamManager K B).streams := by
    intro n' si' hl'
    simp [lookupStream, mkStreamManager] at hl'
  have hrun := (buffersInvB_runOps B ops (mkStreamManager K B) rfl hinit).2
  obtain ⟨_, h2, h3, h4⟩ := hrun n si hl
  exact ⟨h2, h3, h4 hB⟩

/-- Witness for claim C4's amended theorem at the default bound 30. -/
theorem claim_C4_witness :
    1 ≤ 30 ∧
      (∀ (ops : List MOp) (n : String) (si : StreamInfo),
        lookupStream (runOps (mkStreamManager 50 30) ops).streams n = some si →
          si.frame_buffer.length ≤ 30 ∧ si.frame_buffer.length ≤ si.total_frames ∧
          ∀ f, si.current_frame = some f → si.frame_buffer.getLast? = some f) :=
  ⟨by decide, claim_C4_amended 50 30 (by decide)⟩

/-! ## Recording worker (recording_service.py) -/

/-- The JSON sidecar written by _save_metadata. Times are rationals
(epoch seconds); the Python floats are modelled exactly. -/
structure SidecarMetadata where
  stream_name : String
  start_time : ℚ
  end_time : ℚ
  duration_seconds : ℚ
  total_frames : Nat
  average_fps : ℚ
  target_fps : Nat
  codec : String
  recording_path : Option String
deriving Repr, DecidableEq

/-- round(x, 2): rounding to two decimal places. Python's round applies
round-half-to-even on floats; over the rationals we use Mathlib's round
(half away from zero upward), which agrees everywhere except exactly at
midpoints, and every bound proved below holds for either convention. -/
def roundTo2 (q : ℚ) : ℚ := (round (q * 100) : ℤ) / 100

/-- The average_fps value computed in _save_metadata:
frame_count / duration if duration > 0 else 0, rounded to 2 decimals. -/
def sidecar_avg_fps (frame_count : Nat) (duration : ℚ) : ℚ :=
  roundTo2 (if 0 < duration then (frame_count : ℚ) / duration else 0)

/-- RecordingWorker mutable state. The cv2.VideoWriter handle is opaque:
some () stands for a held handle. -/
structure RecordingWorker where
  stream_name : String
  base_dir : String
  fps : Nat
  codec : String
  video_writer : Option Unit
  recording_path : Option String
  metadata_path : Option String
  start_time : Option ℚ
  frame_count : Nat
  is_recording : Bool
deriving Repr, DecidableEq

/-- RecordingWorker._save_metadata: returns early if metadata_path or
start_time is unset, otherwise produces the sidecar that is written to
disk (returned here instead of performing I/O). -/
def RecordingWorker.save_metadata (w : RecordingWorker) (now : ℚ) :
    Option SidecarMetadata :=
  match w.metadata_path, w.start_time with
  | some _, some st =>
    some { stream_name := w.stream_name, start_time := st, end_time := now,
           duration_seconds := now - st, total_frames := w.frame_count,
           average_fps := sidecar_avg_fps w.frame_count (now - st),
           target_fps := w.fps, codec := w.codec,
           recording_path := w.recording_path }
  | _, _ => none

/-- RecordingWorker._cleanup_writer: release the writer handle, save the
sidecar when a recording was in progress (is_recording and start_time set),
then clear is_recording. Returns the new state and the sidecar written, if
any. -/
def RecordingWorker.cleanup_writer (w : RecordingWorker) (now : ℚ) :
    RecordingWorker × Option SidecarMetadata :=
  let sc := if w.is_recording = true ∧ w.start_time.isSome = true
            then w.save_metadata now else none
  ({ w with video_writer := none, is_recording := false }, sc)

/-! ## Claim theorems: recording sidecar and finalization -/

theorem roundTo2_abs_sub (q : ℚ) : |roundTo2 q - q| ≤ 1 / 200 := by
  unfold roundTo2
  have h := abs_sub_round (q * 100)
  rw [abs_sub_comm] at h
  have he : (round (q * 100) : ℚ) / 100 - q = ((round (q * 100) : ℚ) - q * 100) / 100 := by
    ring
  rw [he, abs_div]
  have h100 : |(100 : ℚ)| = 100 := by norm_num
  rw [h100, div_le_div_iff₀ (by norm_num) (by norm_num)]
  linarith

theorem sidecar_avg_fps_mul_close (fc : Nat) (d : ℚ) (hd : 0 < d) :
    |sidecar_avg_fps fc d * d - (fc : ℚ)| ≤ d / 200 := by
  have hne : d ≠ 0 := ne_of_gt hd
  have h1 : sidecar_avg_fps fc d = roundTo2 ((fc : ℚ) / d) := by
    simp [sidecar_avg_fps, hd]
  rw [h1]
  have h2 := roundTo2_abs_sub ((fc : ℚ) / d)
  have h3 : roundTo2 ((fc : ℚ) / d) * d - (fc : ℚ) =
      (roundTo2 ((fc : ℚ) / d) - (fc : ℚ) / d) * d := by
    field_simp
  rw [h3, abs_mul, abs_of_pos hd]
  calc |roundTo2 ((fc : ℚ) / d) - (fc : ℚ) / d| * d ≤ (1 / 200) * d :=
        mul_le_mul_of_nonneg_right h2 (le_of_lt hd)
    _ = d / 200 := by ring

/-- Concrete worker for the C5 counterexample: one frame written over a
recording that ran for 300 seconds. -/
def c5worker : RecordingWorker :=
  { stream_name := "s", base_dir := "recordings", fps := 30, codec := "mp4v",
    video_writer := some (), recording_path := some "recordings/s/s_x.mp4",
    metadata_path := some "recordings/s/s_x.json", start_time := some 0,
    frame_count := 1, is_recording := true }

/-- Claim C5, counterexample: for one frame over 300 seconds the sidecar
records average_fps = round(1/300, 2) = 0, so average_fps times
duration_seconds is 0 while total_frames is 1 — off by 1, far beyond the
claimed fixed tolerance of 0.01. The rounding error of up to 0.005 is
scaled by the duration, so no fixed tolerance works. -/
theorem claim_C5_counterexample :
    (c5worker.save_metadata 300).elim False (fun sc =>
      sc.total_frames = 1 ∧ sc.duration_seconds = 300 ∧ sc.average_fps = 0 ∧
      ¬ |sc.average_fps * sc.duration_seconds - (sc.total_frames : ℚ)| ≤ 1 / 100) := by
  have hav : sidecar_avg_fps 1 ((300 : ℚ) - 0) = 0 := by
    norm_num [sidecar_avg_fps, roundTo2, round_eq]
  simp only [c5worker, RecordingWorker.save_metadata, Option.elim, hav]
  norm_num

/-- Claim C5 (amended): in every sidecar produced by _save_metadata,
average_fps equals frame_count / duration_seconds rounded to 2 decimals
when duration_seconds > 0 and 0 otherwise; and when duration_seconds > 0,
average_fps times duration_seconds equals total_frames within a tolerance
of duration_seconds / 200 (the half-unit of the 2-decimal rounding scaled
by the duration) — not within the fixed 0.01 of the original claim. -/
theorem claim_C5_amended (w : RecordingWorker) (now : ℚ) (sc : SidecarMetadata)
    (h : w.save_metadata now = some sc) :
    sc.average_fps = sidecar_avg_fps sc.total_frames sc.duration_seconds ∧
    (0 < sc.duration_seconds →
      sc.average_fps = roundTo2 ((sc.total_frames : ℚ) / sc.duration_seconds) ∧
      |sc.average_fps * sc.duration_seconds - (sc.total_frames : ℚ)| ≤
        sc.duration_seconds / 200) ∧
    (sc.duration_seconds ≤ 0 → sc.average_fps = 0) := by
  unfold RecordingWorker.save_metadata at h
  cases hmp : w.metadata_path with
  | none => rw [hmp] at h; cases h
  | some mp =>
    cases hst : w.start_time with
    | none => rw [hmp, hst] at h; cases h
    | some st =>
      rw [hmp, hst] at h
      injection h with h
      subst h
      dsimp only
      refine ⟨rfl, fun hd => ⟨?_, ?_⟩, fun hd => ?_⟩
      · simp only [sidecar_avg_fps]
        rw [if_pos hd]
      · exact sidecar_avg_fps_mul_close w.frame_count (now - st) hd
      · simp only [sidecar_avg_fps]
        rw [if_neg (not_lt.mpr hd)]
        simp [roundTo2]

/-- Worker and sidecar for the C5 witness: two frames over one second. -/
def c5wit : RecordingWorker :=
  { stream_name := "s", base_dir := "recordings", fps := 30, codec := "mp4v",
    video_writer := some (), recording_path := none,
    metadata_path := some "recordings/s/s_y.json", start_time := some 0,
    frame_count := 2, is_recording := true }

/-- The sidecar save_metadata produces for c5wit at time 1. -/
def c5witSc : SidecarMetadata :=
  { stream_name := "s", start_time := 0, end_time := 1,
    duration_seconds := 1 - 0, total_frames := 2,
    average_fps := sidecar_avg_fps 2 (1 - 0), target_fps := 30,
    codec := "mp4v", recording_path := none }

/-- Witness for claim C5's amended theorem at the concrete worker. -/
theorem claim_C5_witness :
    c5wit.save_metadata 1 = some c5witSc ∧
      (c5witSc.average_fps = sidecar_avg_fps c5witSc.total_frames c5witSc.duration_seconds ∧
        (0 < c5witSc.duration_seconds →
          c5witSc.average_fps = roundTo2 ((c5witSc.total_frames : ℚ) / c5witSc.duration_seconds) ∧
          |c5witSc.average_fps * c5witSc.duration_seconds - (c5witSc.total_frames : ℚ)| ≤
            c5witSc.duration_seconds / 200) ∧
        (c5witSc.duration_seconds ≤ 0 → c5witSc.average_fps = 0)) :=
  ⟨rfl, claim_C5_amended c5wit 1 c5witSc rfl⟩

/-- Claim C10: RecordingWorker finalization is idempotent. After one
cleanup_writer call, is_recording is false and the writer handle is
released, so any further call — in particular the one stop() makes after
the worker loop has already run its own cleanup — leaves the state
unchanged and writes no sidecar; at most one sidecar per worker lifetime. -/
theorem claim_C10_cleanup_idempotent (w : RecordingWorker) (t1 t2 : ℚ) :
    ((w.cleanup_writer t1).1.cleanup_writer t2).1 = (w.cleanup_writer t1).1 ∧
    ((w.cleanup_writer t1).1.cleanup_writer t2).2 = none := by
  constructor
  · rfl
  · simp [RecordingWorker.cleanup_writer]

/-! ## Cleanup manager retention sweep (cleanup_manager.py) -/

/-- A regular file on disk: its path as components relative to the process
working directory, and its mtime in epoch seconds. -/
structure FsFile where
  path : List String
  mtime : Int
deriving Repr, DecidableEq

/-- Seconds in a day, for timedelta(days=retention_days). -/
def secondsPerDay : Int := 86400

/-- The configuration held by a RecordingService (its __init__ arguments);
recordings are written under base_dir. -/
structure RecordingServiceCfg where
  base_dir : String
  fps : Nat
  codec : String
deriving Repr, DecidableEq

/-- The path at which a RecordingWorker writes its files
(_initialize_writer): base_dir / stream_name / filename. -/
def recordingFilePath (base_dir stream_name filename : String) : List String :=
  [base_dir, stream_name, filename]

/-- CleanupManager state relevant to the retention sweep. -/
structure CleanupManagerCfg where
  recording_service : Option RecordingServiceCfg
  retention_days : Int
deriving Repr, DecidableEq

/-- CleanupManager._cleanup_old_recordings: the walk root is the literal
Path('recordings') (cleanup_manager.py line 116), not the recording
service's base_dir. Every regular file under that root whose mtime is
older than now minus retention_days days is deleted; the function returns
the files that remain. -/
def CleanupManagerCfg.cleanup_old_recordings (cm : CleanupManagerCfg)
    (fs : List FsFile) (now : Int) : List FsFile :=
  let cutoff := now - cm.retention_days * secondsPerDay
  fs.filter (fun f =>
    !(f.path.head? == some "recordings" && decide (f.mtime < cutoff)))

/-- Claim C8: the retention sweep only ever deletes files under the literal
directory recordings: a file anywhere else — in particular one written by a
worker configured with any other base_dir — survives every sweep; the sweep
result does not depend on the recording service configured on the manager;
and everything the sweep removes lay under recordings. -/
theorem claim_C8_retention_literal_dir (cm : CleanupManagerCfg) (fs : List FsFile)
    (f : FsFile) (now : Int) (hf : f ∈ fs)
    (hbd : f.path.head? ≠ some "recordings") :
    f ∈ cm.cleanup_old_recordings fs now ∧
    (∀ rs rs' : Option RecordingServiceCfg,
      CleanupManagerCfg.cleanup_old_recordings
          { cm with recording_service := rs } fs now =
        CleanupManagerCfg.cleanup_old_recordings
          { cm with recording_service := rs' } fs now) ∧
    (∀ g ∈ fs, g ∉ cm.cleanup_old_recordings fs now →
      g.path.head? = some "recordings") ∧
    (∀ bd sn fn, (recordingFilePath bd sn fn).head? = some bd) := by
  refine ⟨?_, fun rs rs' => rfl, ?_, fun bd sn fn => rfl⟩
  · rw [CleanupManagerCfg.cleanup_old_recordings, List.mem_filter]
    refine ⟨hf, ?_⟩
    simp only [Bool.not_eq_true', Bool.and_eq_false_iff]
    left
    simpa using hbd
  · intro g hg hgone
    by_contra hne
    apply hgone
    rw [CleanupManagerCfg.cleanup_old_recordings, List.mem_filter]
    refine ⟨hg, ?_⟩
    simp only [Bool.not_eq_true', Bool.and_eq_false_iff]
    left
    simpa using hne

/-- Witness for claim C8 at a concrete file outside recordings. -/
theorem claim_C8_witness :
    (⟨["videos", "cam", "cam_1.mp4"], 0⟩ : FsFile) ∈
        [(⟨["videos", "cam", "cam_1.mp4"], 0⟩ : FsFile)] ∧
    (⟨["videos", "cam", "cam_1.mp4"], 0⟩ : FsFile).path.head? ≠ some "recordings" ∧
    ((⟨["videos", "cam", "cam_1.mp4"], 0⟩ : FsFile) ∈
      CleanupManagerCfg.cleanup_old_recordings ⟨none, 7⟩
        [⟨["videos", "cam", "cam_1.mp4"], 0⟩] 864000000) :=
  ⟨by decide, by decide,
    (claim_C8_retention_literal_dir ⟨none, 7⟩ _ _ 864000000 (by decide) (by decide)).1⟩

/-! ## Client publisher (client/publisher.py) -/

/-- StreamPublisher mutable state. frame_queue models queue.Queue contents
front-first; send_times are the measured round-trip durations in seconds. -/
structure StreamPublisher where
  stream_name : String
  base_quality : Int
  quality : Int
  max_fps : Nat
  retry_delay : Nat
  adaptive : Bool
  max_queue_size : Nat
  frame_queue : List Frame
  send_times : List ℚ
  total_frames : Nat
  failed_frames : Nat
  dropped_frames : Nat
  skipped_frames : Nat
deriving Repr, DecidableEq

/-- StreamPublisher.__init__ with explicit arguments. -/
def StreamPublisher.init (stream_name : String) (quality : Int) (max_fps : Nat)
    (retry_delay : Nat) (adaptive : Bool) (max_queue_size : Nat) : StreamPublisher :=
  { stream_name := stream_name, base_quality := quality, quality := quality,
    max_fps := max_fps, retry_delay := retry_delay, adaptive := adaptive,
    max_queue_size := max_queue_size, frame_queue := [], send_times := [],
    total_frames := 0, failed_frames := 0, dropped_frames := 0,
    skipped_frames := 0 }

/-- StreamPublisher.__init__ at its Python default arguments: quality=85,
max_fps=30, retry_delay=5, adaptive=True, max_queue_size=30. -/
def StreamPublisher.initDefaults (stream_name : String) : StreamPublisher :=
  StreamPublisher.init stream_name 85 30 5 true 30

/-- queue_size / max_queue_size as computed in publish_frame and
_adapt_quality. (For max_queue_size = 0 Python raises ZeroDivisionError in
the adaptive branch; rational division by zero yields 0 here, which only
matters outside the max_queue_size ≥ 1 regime of the proofs below.) -/
def StreamPublisher.queue_utilization (p : StreamPublisher) : ℚ :=
  (p.frame_queue.length : ℚ) / (p.max_queue_size : ℚ)

/-- StreamPublisher.publish_frame. The comparison time.time() % 1.0 <
skip_probability is a timing-dependent draw, modelled by the oracle input
skipDraw. queue.Queue treats maxsize 0 as unbounded; put(block=False)
raises Full exactly when 0 < maxsize ≤ qsize, which increments the dropped
counter. -/
def StreamPublisher.publish_frame (p : StreamPublisher) (frame : Frame)
    (skipDraw : Bool) : StreamPublisher × Bool :=
  if p.adaptive = true ∧ 7/10 < p.queue_utilization ∧ skipDraw = true then
    ({ p with skipped_frames := p.skipped_frames + 1 }, false)
  else if 0 < p.max_queue_size ∧ p.max_queue_size ≤ p.frame_queue.length then
    ({ p with dropped_frames := p.dropped_frames + 1 }, false)
  else
    ({ p with frame_queue := p.frame_queue ++ [frame] }, true)

/-- The send-times bookkeeping in _send_frame: append the measured duration
and keep only the last 10 samples. -/
def StreamPublisher.record_send_time (p : StreamPublisher) (t : ℚ) : StreamPublisher :=
  let st := p.send_times ++ [t]
  { p with send_times := if 10 < st.length then st.drop 1 else st }

/-- StreamPublisher._adapt_quality. -/
def StreamPublisher.adapt_quality (p : StreamPublisher) : StreamPublisher :=
  if p.adaptive = false ∨ p.send_times.length < 3 then p
  else
    if 1/2 < p.send_times.sum / (p.send_times.length : ℚ) ∧
        1/2 < p.queue_utilization then
      { p with quality := max 50 (p.quality - 5) }
    else if p.send_times.sum / (p.send_times.length : ℚ) < 1/5 ∧
        p.queue_utilization < 3/10 ∧ p.quality < p.base_quality then
      { p with quality := min p.base_quality (p.quality + 5) }
    else p

/-- The queue.Empty branch of _worker_loop: when idle and adaptive, reset
quality to base_quality. -/
def StreamPublisher.idle_reset (p : StreamPublisher) : StreamPublisher :=
  if p.adaptive = true ∧ p.quality < p.base_quality then
    { p with quality := p.base_quality }
  else p

/-- Atomic steps of the publisher from the caller thread (offer) and the
sender loop (dequeue, send-time recording, quality adaptation, idle reset,
outcome counters). -/
inductive PubOp
  | offer (frame : Frame) (skipDraw : Bool)
  | dequeue
  | recordSendTime (t : ℚ)
  | adaptQuality
  | idleReset
  | countSent
  | countFailed
deriving Repr, DecidableEq

/-- State transition of one publisher step. -/
def applyPubOp (p : StreamPublisher) : PubOp → StreamPublisher
  | .offer f d => (p.publish_frame f d).1
  | .dequeue => { p with frame_queue := p.frame_queue.drop 1 }
  | .recordSendTime t => p.record_send_time t
  | .adaptQuality => p.adapt_quality
  | .idleReset => p.idle_reset
  | .countSent => { p with total_frames := p.total_frames + 1 }
  | .countFailed => { p with failed_frames := p.failed_frames + 1 }

/-- Run a sequence of publisher steps. -/
def runPubOps (p : StreamPublisher) (ops : List PubOp) : StreamPublisher :=
  ops.foldl applyPubOp p

/-! ## Publisher step lemmas -/

theorem publish_frame_fields (p : StreamPublisher) (f : Frame) (d : Bool) :
    ((p.publish_frame f d).1).max_queue_size = p.max_queue_size ∧
    ((p.publish_frame f d).1).quality = p.quality ∧
    ((p.publish_frame f d).1).base_quality = p.base_quality := by
  unfold StreamPublisher.publish_frame
  split
  · exact ⟨rfl, rfl, rfl⟩
  · split <;> exact ⟨rfl, rfl, rfl⟩

theorem adapt_quality_fields (p : StreamPublisher) :
    p.adapt_quality.max_queue_size = p.max_queue_size ∧
    p.adapt_quality.frame_queue = p.frame_queue ∧
    p.adapt_quality.base_quality = p.base_quality := by
  unfold StreamPublisher.adapt_quality
  split
  · exact ⟨rfl, rfl, rfl⟩
  · split
    · exact ⟨rfl, rfl, rfl⟩
    · split <;> exact ⟨rfl, rfl, rfl⟩

theorem adapt_quality_quality_cases (p : StreamPublisher) :
    p.adapt_quality.quality = p.quality ∨
    p.adapt_quality.quality = max 50 (p.quality - 5) ∨
    p.adapt_quality.quality = min p.base_quality (p.quality + 5) := by
  unfold StreamPublisher.adapt_quality
  split
  · exact Or.inl rfl
  · split
    · exact Or.inr (Or.inl rfl)
    · split
      · exact Or.inr (Or.inr rfl)
      · exact Or.inl rfl

theorem idle_reset_fields (p : StreamPublisher) :
    p.idle_reset.max_queue_size = p.max_queue_size ∧
    p.idle_reset.frame_queue = p.frame_queue ∧
    p.idle_reset.base_quality = p.base_quality := by
  unfold StreamPublisher.idle_reset
  split <;> exact ⟨rfl, rfl, rfl⟩

theorem idle_reset_quality_cases (p : StreamPublisher) :
    p.idle_reset.quality = p.quality ∨ p.idle_reset.quality = p.base_quality := by
  unfold StreamPublisher.idle_reset
  split
  · exact Or.inr rfl
  · exact Or.inl rfl

theorem pubQueueInv_step (p : StreamPublisher) (op : PubOp)
    (hq : 1 ≤ p.max_queue_size) (h : p.frame_queue.length ≤ p.max_queue_size) :
    (applyPubOp p op).max_queue_size = p.max_queue_size ∧
    (applyPubOp p op).frame_queue.length ≤ p.max_queue_size := by
  cases op with
  | offer f d =>
    refine ⟨(publish_frame_fields p f d).1, ?_⟩
    show ((p.publish_frame f d).1).frame_queue.length ≤ p.max_queue_size
    unfold StreamPublisher.publish_frame
    split
    · exact h
    · split
      · exact h
      · rename_i hc
        simp only [List.length_append, List.length_singleton]
        omega
  | dequeue =>
    refine ⟨rfl, ?_⟩
    show (p.frame_queue.drop 1).length ≤ p.max_queue_size
    rw [List.length_drop]
    omega
  | recordSendTime t => exact ⟨rfl, h⟩
  | adaptQuality =>
    obtain ⟨h1, h2, _⟩ := adapt_quality_fields p
    exact ⟨h1, by rw [show (applyPubOp p PubOp.adaptQuality).frame_queue =
      p.frame_queue from h2]; exact h⟩
  | idleReset =>
    obtain ⟨h1, h2, _⟩ := idle_reset_fields p
    exact ⟨h1, by rw [show (applyPubOp p PubOp.idleReset).frame_queue =
      p.frame_queue from h2]; exact h⟩
  | countSent => exact ⟨rfl, h⟩
  | countFailed => exact ⟨rfl, h⟩

theorem pubQueueInv_runOps (ops : List PubOp) : ∀ p : StreamPublisher,
    1 ≤ p.max_queue_size → p.frame_queue.length ≤ p.max_queue_size →
    (runPubOps p ops).max_queue_size = p.max_queue_size ∧
    (runPubOps p ops).frame_queue.length ≤ p.max_queue_size := by
  induction ops with
  | nil => intro p _ h; exact ⟨rfl, h⟩
  | cons op rest ih =>
    intro p hq h
    obtain ⟨hmq, hlen⟩ := pubQueueInv_step p op hq h
    obtain ⟨ha, hb⟩ := ih (applyPubOp p op) (hmq ▸ hq) (hmq ▸ hlen)
    refine ⟨?_, ?_⟩
    · show (runPubOps (applyPubOp p op) rest).max_queue_size = p.max_queue_size
      rw [ha, hmq]
    · show (runPubOps (applyPubOp p op) rest).frame_queue.length ≤ p.max_queue_size
      rw [← hmq]
      exact hb

theorem pubQualityInv_step (b : Int) (p : StreamPublisher) (op : PubOp)
    (hb : 50 ≤ b) (h1 : p.base_quality = b) (h2 : 50 ≤ p.quality)
    (h3 : p.quality ≤ b) :
    (applyPubOp p op).base_quality = b ∧ 50 ≤ (applyPubOp p op).quality ∧
      (applyPubOp p op).quality ≤ b := by
  cases op with
  | offer f d =>
    obtain ⟨_, hq, hbq⟩ := publish_frame_fields p f d
    exact ⟨by rw [show (applyPubOp p (PubOp.offer f d)).base_quality =
        p.base_quality from hbq]; exact h1,
      by rw [show (applyPubOp p (PubOp.offer f d)).quality = p.quality from hq]; exact h2,
      by rw [show (applyPubOp p (PubOp.offer f d)).quality = p.quality from hq]; exact h3⟩
  | dequeue => exact ⟨h1, h2, h3⟩
  | recordSendTime t => exact ⟨h1, h2, h3⟩
  | adaptQuality =>
    obtain ⟨_, _, hbq⟩ := adapt_quality_fields p
    have hbq' : (applyPubOp p PubOp.adaptQuality).base_quality = b := by
      rw [show (applyPubOp p PubOp.adaptQuality).base_quality =
        p.base_quality from hbq]
      exact h1
    rcases adapt_quality_quality_cases p with hq | hq | hq <;>
      · refine ⟨hbq', ?_, ?_⟩ <;>
        · rw [show (applyPubOp p PubOp.adaptQuality).quality =
            p.adapt_quality.quality from rfl, hq]
          omega
  | idleReset =>
    obtain ⟨_, _, hbq⟩ := idle_reset_fields p
    have hbq' : (applyPubOp p PubOp.idleReset).base_quality = b := by
      rw [show (applyPubOp p PubOp.idleReset).base_quality = p.base_quality from hbq]
      exact h1
    rcases idle_reset_quality_cases p with hq | hq <;>
      · refine ⟨hbq', ?_, ?_⟩ <;>
        · rw [show (applyPubOp p PubOp.idleReset).quality =
            p.idle_reset.quality from rfl, hq]
          omega
  | countSent => exact ⟨h1, h2, h3⟩
  | countFailed => exact ⟨h1, h2, h3⟩

/-! ## Claim theorems: client publisher -/

/-- A publisher constructed with adaptive disabled and max_queue_size 0
(queue.Queue treats maxsize 0 as unbounded). -/
def c6zero : StreamPublisher := StreamPublisher.init "cam" 85 30 5 false 0

/-- Claim C6, counterexample: the Python default for max_queue_size in
StreamPublisher.__init__ is 30, not the claimed 15 (15 is only the CLI
default of the webcam example). Moreover for max_queue_size = 0 the queue
is unbounded — one offered frame already exceeds the bound — so the
boundedness statement needs max_queue_size ≥ 1. -/
theorem claim_C6_counterexample :
    (StreamPublisher.initDefaults "cam").max_queue_size = 30 ∧
    (StreamPublisher.initDefaults "cam").max_queue_size ≠ 15 ∧
    (runPubOps c6zero [PubOp.offer [1] false]).frame_queue.length = 1 ∧
    ¬ (runPubOps c6zero [PubOp.offer [1] false]).frame_queue.length ≤
        c6zero.max_queue_size := by
  refine ⟨rfl, by decide, by decide, by decide⟩

/-- Claim C6 (amended): the frame queue is bounded with capacity
max_queue_size, whose Python default is 30 (not 15), and for any
max_queue_size ≥ 1 the number of queued frames never exceeds it under any
sequence of offers and sender-loop operations (for max_queue_size = 0 the
queue is unbounded by queue.Queue semantics). -/
theorem claim_C6_amended (name : String) (q : Int) (mf rd : Nat) (a : Bool)
    (mq : Nat) (hq : 1 ≤ mq) :
    (StreamPublisher.initDefaults name).max_queue_size = 30 ∧
    ∀ ops : List PubOp,
      (runPubOps (StreamPublisher.init name q mf rd a mq) ops).frame_queue.length ≤ mq := by
  refine ⟨rfl, fun ops => ?_⟩
  exact (pubQueueInv_runOps ops (StreamPublisher.init name q mf rd a mq) hq
    (Nat.zero_le mq)).2

/-- Witness for claim C6's amended theorem at the Python defaults. -/
theorem claim_C6_witness :
    1 ≤ 30 ∧
      ((StreamPublisher.initDefaults "cam").max_queue_size = 30 ∧
        ∀ ops : List PubOp,
          (runPubOps (StreamPublisher.init "cam" 85 30 5 true 30) ops).frame_queue.length
            ≤ 30) :=
  ⟨by decide, claim_C6_amended "cam" 85 30 5 true 30 (by decide)⟩

/-- A publisher constructed with quality 40, below the adaptive floor 50. -/
def c7pub : StreamPublisher := StreamPublisher.init "cam" 40 30 5 true 30

/-- The state of c7pub after sixteen enqueued frames and three recorded
sends of one second each (reachable by sixteen offers and three
recordSendTime steps). -/
def c7pub2 : StreamPublisher :=
  { c7pub with frame_queue := List.replicate 16 [0], send_times := [1, 1, 1] }

/-- Claim C7, counterexample: for a publisher constructed with quality 40,
the interval [50, base_quality] = [50, 40] is empty and the initial quality
40 already violates the lower bound; moreover one slow-network adaptation
sets quality to max(50, 35) = 50, strictly above base_quality = 40, so the
upper bound fails too. The claimed invariant only holds when
base_quality ≥ 50. -/
theorem claim_C7_counterexample :
    c7pub.base_quality = 40 ∧ c7pub.quality = 40 ∧ ¬ 50 ≤ c7pub.quality ∧
    c7pub2.adapt_quality.quality = 50 ∧
    ¬ c7pub2.adapt_quality.quality ≤ c7pub2.adapt_quality.base_quality := by
  have h1 : ¬ (c7pub2.adaptive = false ∨ c7pub2.send_times.length < 3) := by decide
  have h2 : 1/2 < c7pub2.send_times.sum / (c7pub2.send_times.length : ℚ) ∧
      1/2 < c7pub2.queue_utilization := by
    constructor
    · show (1 : ℚ)/2 < ((1 : ℚ) + (1 + (1 + 0))) / ((3 : Nat) : ℚ)
      norm_num
    · show (1 : ℚ)/2 <
        ((List.replicate 16 ([0] : Frame)).length : ℚ) / ((30 : Nat) : ℚ)
      rw [List.length_replicate]
      norm_num
  have hq : c7pub2.adapt_quality =
      { c7pub2 with quality := max 50 (c7pub2.quality - 5) } := by
    unfold StreamPublisher.adapt_quality
    rw [if_neg h1, if_pos h2]
  refine ⟨rfl, rfl, by decide, ?_, ?_⟩
  · rw [hq]; decide
  · rw [hq]; decide

/-- Claim C7 (amended): provided the quality passed at construction is at
least 50, the quality stays within [50, base_quality] under every sequence
of offers and sender-loop operations (adaptation, idle reset, and the
rest); for base_quality below 50 the bound fails already at construction
and after one downward adaptation. -/
theorem claim_C7_amended (name : String) (q : Int) (mf rd : Nat) (a : Bool)
    (mq : Nat) (hb : 50 ≤ q) :
    ∀ ops : List PubOp,
      50 ≤ (runPubOps (StreamPublisher.init name q mf rd a mq) ops).quality ∧
      (runPubOps (StreamPublisher.init name q mf rd a mq) ops).quality ≤ q := by
  have main : ∀ (ops : List PubOp) (p : StreamPublisher), p.base_quality = q →
      50 ≤ p.quality → p.quality ≤ q →
      (runPubOps p ops).base_quality = q ∧ 50 ≤ (runPubOps p ops).quality ∧
        (runPubOps p ops).quality ≤ q := by
    intro ops
    induction ops with
    | nil => intro p k1 k2 k3; exact ⟨k1, k2, k3⟩
    | cons op rest ih =>
      intro p k1 k2 k3
      obtain ⟨j1, j2, j3⟩ := pubQualityInv_step q p op hb k1 k2 k3
      exact ih (applyPubOp p op) j1 j2 j3
  intro ops
  have h := main ops (StreamPublisher.init name q mf rd a mq) rfl hb (le_refl q)
  exact ⟨h.2.1, h.2.2⟩

/-- Witness for claim C7's amended theorem at the Python default quality 85. -/
theorem claim_C7_witness :
    (50 : Int) ≤ 85 ∧
      ∀ ops : List PubOp,
        50 ≤ (runPubOps (StreamPublisher.init "cam" 85 30 5 true 30) ops).quality ∧
        (runPubOps (StreamPublisher.init "cam" 85 30 5 true 30) ops).quality ≤ 85 :=
  ⟨by decide, claim_C7_amended "cam" 85 30 5 true 30 (by decide)⟩

/-- Claim C9: _adapt_quality returns before touching any state whenever
fewer than 3 send durations are recorded — the guard fires regardless of
how many frames were dequeued since the last adaptation, because the call
site's 30-frame counter is a local of the worker loop and is not consulted
by _adapt_quality itself. -/
theorem claim_C9_no_adapt_below_three_samples (p : StreamPublisher)
    (h : p.send_times.length < 3) : p.adapt_quality = p := by
  unfold StreamPublisher.adapt_quality
  rw [if_pos (Or.inr h)]

/-- Witness for claim C9 at a freshly constructed publisher. -/
theorem claim_C9_witness :
    (StreamPublisher.initDefaults "cam").send_times.length < 3 ∧
      (StreamPublisher.initDefaults "cam").adapt_quality =
        StreamPublisher.initDefaults "cam" :=
  ⟨by decide, claim_C9_no_adapt_below_three_samples _ (by decide)⟩

end RobogptVideo
